import Mathlib

/-!
Verification of the motion-controller scripts of the sadouni-v7 website.

The development shallowly embeds the two JavaScript source files:

* the premium animation controller (`src/unnamed/part_000`): the
  reduced-motion / capability gate, the mobile classification, the
  effect-registration pass `initPremiumAnimations` with its try/catch
  guard, the scroll-velocity sampler (`updateVelocity`, `handleScroll`,
  `throttle`) and the magnetic-hover handlers;
* the mobile override script (`src/assets/js/mobile-optimize.js`).

Scroll positions, pointer coordinates and wall-clock times are modelled
as exact rationals; JavaScript arrays become Lean lists; exceptions
become `Except`; the event loop becomes an explicit list of events
folded over an explicit state.
-/

namespace Sadouni

/-! ## Scroll-velocity sampler (`scrollVelocityParallax`)

The closure state of `scrollVelocityParallax`:
`lastScrollY`, `scrollVelocity` and `velocityHistory`.
The `ticking` flag lives in the scroll pipeline model further below.  -/

structure VelocityState where
  lastScrollY : ℚ
  scrollVelocity : ℚ
  velocityHistory : List ℚ
  deriving Repr, DecidableEq

/-- JS `reduce((a, b) => a + b, 0)` on an array: left fold with `+` from `0`. -/
def listSum (l : List ℚ) : ℚ := l.foldl (· + ·) 0

/-- The body of `updateVelocity` (src/unnamed/part_000, lines 252–262;
identical to the scroll handler of the second variant, lines 590–600):

```js
const currentScrollY = window.scrollY;
const instantVelocity = Math.abs(currentScrollY - lastScrollY);
velocityHistory.push(instantVelocity);
if (velocityHistory.length > 5) velocityHistory.shift();
scrollVelocity = velocityHistory.reduce((a, b) => a + b, 0) / velocityHistory.length;
lastScrollY = currentScrollY;
```

`push` appends at the back, `shift` removes the front element. -/
def updateVelocity (s : VelocityState) (currentScrollY : ℚ) : VelocityState :=
  let instantVelocity : ℚ := |currentScrollY - s.lastScrollY|
  let pushed : List ℚ := s.velocityHistory ++ [instantVelocity]
  let hist : List ℚ := if pushed.length > 5 then pushed.tail else pushed
  { lastScrollY := currentScrollY
    scrollVelocity := listSum hist / (hist.length : ℚ)
    velocityHistory := hist }

/-- Closure state at binding time
(`let lastScrollY = window.scrollY; let scrollVelocity = 0; let velocityHistory = [];`). -/
def scrollVelocityParallaxInit (windowScrollY : ℚ) : VelocityState :=
  { lastScrollY := windowScrollY, scrollVelocity := 0, velocityHistory := [] }

/-- Feeding the sampler a sequence of observed scroll positions. -/
def sampleRun (s : VelocityState) (ys : List ℚ) : VelocityState :=
  ys.foldl updateVelocity s

/-- The absolute deltas the sampler computes along a run of scroll
positions, starting from remembered position `last`. -/
def deltasFrom (last : ℚ) : List ℚ → List ℚ
  | [] => []
  | y :: ys => |y - last| :: deltasFrom y ys

/-- The suffix of the last (at most) `n` elements of a list. -/
def lastN (n : ℕ) (l : List ℚ) : List ℚ := l.drop (l.length - n)

theorem lastN_length_le (n : ℕ) (l : List ℚ) : (lastN n l).length ≤ n := by
  simp only [lastN, List.length_drop]
  omega

theorem lastN_of_length_le {n : ℕ} {l : List ℚ} (h : l.length ≤ n) :
    lastN n l = l := by
  simp only [lastN]
  have : l.length - n = 0 := by omega
  simp [this]

theorem lastN_append_absorb (n : ℕ) (l m : List ℚ) :
    lastN n (lastN n l ++ m) = lastN n (l ++ m) := by
  unfold lastN
  rcases le_or_lt l.length n with h | h
  · have : l.length - n = 0 := by omega
    simp [this]
  · have hk : l.length - n ≤ l.length := Nat.sub_le _ _
    rw [← List.drop_append_of_le_length hk, List.drop_drop]
    congr 1
    simp only [List.length_drop, List.length_append]
    omega

theorem updateVelocity_history (s : VelocityState) (y : ℚ)
    (h : s.velocityHistory.length ≤ 5) :
    (updateVelocity s y).velocityHistory =
      lastN 5 (s.velocityHistory ++ [|y - s.lastScrollY|]) := by
  simp only [updateVelocity, lastN, List.length_append, List.length_cons,
    List.length_nil]
  rcases Nat.lt_or_ge s.velocityHistory.length 5 with h5 | h5
  · have hgt : ¬ (s.velocityHistory.length + 1 > 5) := by omega
    have hz : s.velocityHistory.length + (0 + 1) - 5 = 0 := by omega
    simp [hgt, hz]
  · have hlen : s.velocityHistory.length = 5 := le_antisymm h h5
    have hgt : s.velocityHistory.length + 1 > 5 := by omega
    have hone : s.velocityHistory.length + (0 + 1) - 5 = 1 := by omega
    simp [hgt, hone, List.drop_one]

theorem updateVelocity_lastScrollY (s : VelocityState) (y : ℚ) :
    (updateVelocity s y).lastScrollY = y := rfl

theorem updateVelocity_velocity_mean (s : VelocityState) (y : ℚ) :
    (updateVelocity s y).scrollVelocity =
      listSum (updateVelocity s y).velocityHistory /
        ((updateVelocity s y).velocityHistory.length : ℚ) := rfl

/-- Main window lemma: running the sampler from any state whose history
respects the bound leaves exactly the last (at most) five deltas of
`history ++ new deltas` in the window. -/
theorem sampleRun_history (s : VelocityState) (ys : List ℚ)
    (h : s.velocityHistory.length ≤ 5) :
    (sampleRun s ys).velocityHistory =
      lastN 5 (s.velocityHistory ++ deltasFrom s.lastScrollY ys) := by
  induction ys generalizing s with
  | nil =>
    simp [sampleRun, deltasFrom, lastN_of_length_le h]
  | cons y ys ih =>
    have hstep := updateVelocity_history s y h
    have hlen : (updateVelocity s y).velocityHistory.length ≤ 5 := by
      rw [hstep]; exact lastN_length_le 5 _
    have h1 : (sampleRun (updateVelocity s y) ys).velocityHistory =
        lastN 5 ((updateVelocity s y).velocityHistory ++
          deltasFrom (updateVelocity s y).lastScrollY ys) :=
      ih (updateVelocity s y) hlen
    have hrun : sampleRun s (y :: ys) = sampleRun (updateVelocity s y) ys := rfl
    rw [hrun, h1, hstep, updateVelocity_lastScrollY, lastN_append_absorb]
    simp [deltasFrom, List.append_assoc]

/-! ## Throttle + animation-frame coalescing (`throttle`, `handleScroll`)

The scroll listener is `throttle(handleScroll, 50)`
(src/unnamed/part_000, lines 229–240 and 264–273).  `throttle` keeps an
`inThrottle` flag that is set when the wrapped function fires and reset
50ms later by a timer; we represent it by the wall-clock time until
which the flag stays set.  `handleScroll` schedules one
`requestAnimationFrame(updateVelocity)` callback unless one is already
pending (`ticking`); the frame callback performs the sample and clears
`ticking`.  `scheduledSamples` counts `requestAnimationFrame` calls and
`mutations` counts executions of `updateVelocity`.  -/

structure PipelineState where
  throttleBlockedUntil : ℚ
  ticking : Bool
  scheduledSamples : ℕ
  mutations : ℕ
  vel : VelocityState
  deriving Repr, DecidableEq

/-- An event seen by the pipeline: a scroll event at wall-clock time `t`,
or an animation frame at which `window.scrollY` reads `scrollY`. -/
inductive ScrollEvent
  | scroll (t : ℚ)
  | frame (scrollY : ℚ)
  deriving Repr, DecidableEq

/-- Embedding of `handleScroll` (lines 265–270): schedule a frame callback only when
none is pending. -/
def handleScroll (st : PipelineState) : PipelineState :=
  if st.ticking then st
  else { st with ticking := true, scheduledSamples := st.scheduledSamples + 1 }

/-- One scroll event arriving at time `t` through `throttle(handleScroll, limit)`
(lines 229–240): leading edge — fire if `inThrottle` is clear, then keep
it set for `limit` ms; otherwise drop the event. -/
def throttleStep (limit : ℚ) (st : PipelineState) (t : ℚ) : PipelineState :=
  if st.throttleBlockedUntil ≤ t then
    let st' := handleScroll st
    { st' with throttleBlockedUntil := t + limit }
  else st

/-- An animation frame: the pending `updateVelocity` callback, if any,
runs exactly once and clears `ticking` (line 261). -/
def frameStep (st : PipelineState) (scrollY : ℚ) : PipelineState :=
  if st.ticking then
    { st with
      vel := updateVelocity st.vel scrollY
      ticking := false
      mutations := st.mutations + 1 }
  else st

def pipelineStep (st : PipelineState) : ScrollEvent → PipelineState
  | .scroll t => throttleStep 50 st t
  | .frame y => frameStep st y

def pipelineRun (st : PipelineState) (evs : List ScrollEvent) : PipelineState :=
  evs.foldl pipelineStep st

/-- Number of animation-frame events in an event trace. -/
def frameCount (evs : List ScrollEvent) : ℕ :=
  (evs.filter fun e => match e with | .frame _ => true | .scroll _ => false).length

theorem pipelineStep_mutations_le (st : PipelineState) (e : ScrollEvent) :
    (pipelineStep st e).mutations ≤
      st.mutations + frameCount [e] := by
  cases e with
  | scroll t =>
    simp only [pipelineStep, throttleStep, handleScroll]
    split
    · split <;> simp
    · simp
  | frame y =>
    simp only [pipelineStep, frameStep, frameCount]
    split <;> simp

theorem pipelineRun_mutations_le (st : PipelineState) (evs : List ScrollEvent) :
    (pipelineRun st evs).mutations ≤ st.mutations + frameCount evs := by
  induction evs generalizing st with
  | nil => simp [pipelineRun, frameCount]
  | cons e evs ih =>
    have h1 : pipelineRun st (e :: evs) = pipelineRun (pipelineStep st e) evs := rfl
    have h2 := pipelineStep_mutations_le st e
    have h3 := ih (pipelineStep st e)
    have h4 : frameCount (e :: evs) = frameCount [e] + frameCount evs := by
      cases e <;> simp [frameCount, Nat.add_comm]
    rw [h1, h4]
    omega

/-! ## Capability gate and effect registration (`initPremiumAnimations`)

We model the first (mobile-aware) variant of the controller
(src/unnamed/part_000, lines 7–457).  Each effect function is embedded
by the list of effect registrations it performs; DOM selectors are
abstracted to presence flags where the code branches on them.  -/

/-- The distinct registrations the controller can perform.
`multiLayerParallaxFull` is the desktop branch of `multiLayerParallax`
(hero + about-image parallax tweens); `multiLayerParallaxFadeIn` is its
mobile branch (the single `gsap.from` fade-in, lines 131–140). -/
inductive Binding
  | multiLayerParallaxFull
  | multiLayerParallaxFadeIn
  | imageFocusTransition
  | scrollVelocityParallax
  | pinnedSectionMicroMovements
  | subtlePerspectiveDepth
  | magneticHoverEffect
  | optimizeTouchEvents
  deriving Repr, DecidableEq

/-- Embedding of `multiLayerParallax` (lines 126–190): returns immediately when no
`.cs_hero` element exists; on mobile registers only the simple fade-in
and returns; otherwise registers the full parallax set. -/
def multiLayerParallax (isMobile heroPresent : Bool) : List Binding :=
  if !heroPresent then []
  else if isMobile then [.multiLayerParallaxFadeIn]
  else [.multiLayerParallaxFull]

/-- Embedding of `scrollVelocityParallax` (lines 242–304): returns immediately on
mobile (line 244), otherwise installs the throttled scroll listener and
velocity tweens. -/
def scrollVelocityParallaxBindings (isMobile : Bool) : List Binding :=
  if isMobile then [] else [.scrollVelocityParallax]

/-- Registrations performed by `initPremiumAnimations` (lines 71–92)
when no call throws: heavy effects only when `!isMobile`, then
`imageFocusTransition` always, then `optimizeTouchEvents` only on
mobile. -/
def initPremiumAnimationsBindings (isMobile heroPresent : Bool) : List Binding :=
  (if !isMobile then
      multiLayerParallax isMobile heroPresent ++
      scrollVelocityParallaxBindings isMobile ++
      [.pinnedSectionMicroMovements, .subtlePerspectiveDepth, .magneticHoverEffect]
    else []) ++
  [.imageFocusTransition] ++
  (if isMobile then [.optimizeTouchEvents] else [])

/-- The `try { ... } catch (error) { console.error(...) }` guard of
`initPremiumAnimations`: the registration calls of the pass run in
order; each either registers its bindings (`.ok`) or throws
(`.error`).  The first throw aborts the remaining calls; the exception
is caught and handed to `console.error`, never rethrown.  Returns the
bindings registered before the failure and the caught error, if any. -/
def runRegistrationPass : List (Except String (List Binding)) →
    List Binding × Option String
  | [] => ([], none)
  | .ok bs :: rest =>
      let r := runRegistrationPass rest
      (bs ++ r.1, r.2)
  | .error e :: _ => ([], some e)

/-- Startup configuration read once by the IIFE (lines 11–12):
`matchMedia('(prefers-reduced-motion: reduce)').matches`,
the user-agent mobile test, and `typeof gsap === 'undefined'`. -/
structure Config where
  gsapDefined : Bool
  prefersReducedMotion : Bool
  isMobile : Bool
  deriving Repr, DecidableEq

/-- Outcome of running the controller script to completion.  The script
returns an outcome (rather than an `Except`), so by construction no
exception escapes to the page; exceptions raised by registration calls
appear only as `caughtError`. -/
structure ScriptResult where
  registered : List Binding
  logs : List String
  caughtError : Option String
  deriving Repr, DecidableEq

/-- The disabled-path log message (line 16). -/
def gateLogMessage : String :=
  "GSAP animations disabled - library not available or reduced motion preferred"

/-- Top level of the controller IIFE (lines 15–18 and 67–92): if GSAP is
undefined or reduced motion is preferred, log and return before any
registration; otherwise, on DOMContentLoaded, run the registration pass
`acts` under the try/catch guard.  `acts` is the sequence of
registration calls the pass makes, each possibly throwing. -/
def premiumAnimationsMain (cfg : Config)
    (acts : List (Except String (List Binding))) : ScriptResult :=
  if !cfg.gsapDefined || cfg.prefersReducedMotion then
    { registered := [], logs := [gateLogMessage], caughtError := none }
  else
    let r := runRegistrationPass acts
    { registered := r.1, logs := [], caughtError := r.2 }

/-- The registration calls `initPremiumAnimations` actually makes, in
source order, when the animation capability does not throw. -/
def initPremiumAnimationsActs (isMobile heroPresent : Bool) :
    List (Except String (List Binding)) :=
  (if !isMobile then
      [Except.ok (multiLayerParallax isMobile heroPresent),
       Except.ok (scrollVelocityParallaxBindings isMobile),
       Except.ok [.pinnedSectionMicroMovements],
       Except.ok [.subtlePerspectiveDepth],
       Except.ok [.magneticHoverEffect]]
    else []) ++
  [Except.ok [.imageFocusTransition]] ++
  (if isMobile then [Except.ok [.optimizeTouchEvents]] else [])

/-! ## Magnetic hover effect (`magneticHoverEffect`, lines 406–448) -/

structure Rect where
  left : ℚ
  top : ℚ
  width : ℚ
  height : ℚ
  deriving Repr, DecidableEq

structure PointerPos where
  clientX : ℚ
  clientY : ℚ
  deriving Repr, DecidableEq

/-- Computes `const x = e.clientX - rect.left - rect.width / 2` and the analogous
`y`: the pointer's offset from the button's center. -/
def pointerOffset (rect : Rect) (e : PointerPos) : ℚ × ℚ :=
  (e.clientX - rect.left - rect.width / 2,
   e.clientY - rect.top - rect.height / 2)

/-- Target offset tweened on `mouseenter` (lines 416–421):
`x: x * 0.08, y: y * 0.08`. -/
def magneticEnterTarget (rect : Rect) (e : PointerPos) : ℚ × ℚ :=
  ((pointerOffset rect e).1 * (8 / 100), (pointerOffset rect e).2 * (8 / 100))

/-- Duration `0.4` of the `mouseenter` tween. -/
def magneticEnterDuration : ℚ := 4 / 10

/-- Target offset tweened on `mousemove` (lines 440–445): same 0.08
factor. -/
def magneticMoveTarget (rect : Rect) (e : PointerPos) : ℚ × ℚ :=
  ((pointerOffset rect e).1 * (8 / 100), (pointerOffset rect e).2 * (8 / 100))

/-- Duration `0.15` of the `mousemove` tween. -/
def magneticMoveDuration : ℚ := 15 / 100

/-- Target offset tweened on `mouseleave` (lines 424–432): `x: 0, y: 0`. -/
def magneticLeaveTarget : ℚ × ℚ := (0, 0)

/-- Duration `0.6` of the `mouseleave` tween. -/
def magneticLeaveDuration : ℚ := 6 / 10

/-! ## Mobile override script (`src/assets/js/mobile-optimize.js`) -/

/-- The user-agent tokens of the mobile test
(`/Android|webOS|iPhone|iPad|iPod|BlackBerry|IEMobile|Opera Mini/i`),
lower-cased because the regex is case-insensitive. -/
def mobileTokens : List (List Char) :=
  ["android".toList, "webos".toList, "iphone".toList, "ipad".toList,
   "ipod".toList, "blackberry".toList, "iemobile".toList,
   "opera mini".toList]

/-- Does `tok` occur as a contiguous substring of `cs`? -/
def containsTok (tok cs : List Char) : Bool :=
  cs.tails.any fun suf => tok.isPrefixOf suf

/-- Embedding of `isMobile` (mobile-optimize.js line 6 and part_000 line 12): the
case-insensitive regex test, embedded as a lower-cased substring
search. -/
def isMobileUA (ua : String) : Bool :=
  mobileTokens.any fun tok => containsTok tok (ua.toList.map Char.toLower)

/-- The declarations forced (with `!important`) on `*, *:before, *:after`
by the style element `disableAnimations` injects (lines 13–31). -/
structure StyleOverride where
  transition : String
  animation : String
  transform : String
  opacity : String
  transformStyle : String
  backfaceVisibility : String
  perspective : String
  deriving Repr, DecidableEq

def disableAnimationsStyle : StyleOverride :=
  { transition := "none"
    animation := "none"
    transform := "none"
    opacity := "1"
    transformStyle := "flat"
    backfaceVisibility := "visible"
    perspective := "none" }

/-- Observable effects of running mobile-optimize.js to completion. -/
structure MobileOptimizeResult where
  styleInjected : Option StyleOverride
  touchAction : Option String
  touchstartScrollableHandlerInstalled : Bool
  noHoverClassAdded : Bool
  deriving Repr, DecidableEq

/-- The touchstart listener installed by `optimizeScrolling`
(lines 40–44): calls `stopPropagation` exactly when the event target is
inside an element matching `.scrollable`.  Returns whether propagation
is stopped. -/
def touchstartScrollableHandler (targetInScrollable : Bool) : Bool :=
  targetInScrollable

/-- The mobile-optimize IIFE (lines 2–64): returns immediately on
non-mobile; on mobile runs `disableAnimations`, `optimizeScrolling` and
`disableHoverEffects`.  The script never reads the reduced-motion
preference; `prefersReducedMotion` is threaded through only to state
that fact. -/
def mobileOptimizeScript (isMobile prefersReducedMotion : Bool) :
    MobileOptimizeResult :=
  if !isMobile then
    { styleInjected := none
      touchAction := none
      touchstartScrollableHandlerInstalled := false
      noHoverClassAdded := false }
  else
    { styleInjected := some disableAnimationsStyle
      touchAction := some "manipulation"
      touchstartScrollableHandlerInstalled := true
      noHoverClassAdded := true }

/-! ## Further sampler lemmas -/

theorem foldl_add_nonneg (l : List ℚ) :
    ∀ acc : ℚ, 0 ≤ acc → (∀ x ∈ l, 0 ≤ x) → 0 ≤ l.foldl (· + ·) acc := by
  induction l with
  | nil => intro acc ha _; simpa using ha
  | cons x xs ih =>
    intro acc ha h
    have hx : 0 ≤ x := h x (List.mem_cons_self x xs)
    exact ih (acc + x) (by linarith) (fun z hz => h z (List.mem_cons_of_mem x hz))

theorem listSum_nonneg (l : List ℚ) (h : ∀ x ∈ l, 0 ≤ x) : 0 ≤ listSum l :=
  foldl_add_nonneg l 0 le_rfl h

theorem sampleRun_velocity_mean (s : VelocityState) (ys : List ℚ) (h : ys ≠ []) :
    (sampleRun s ys).scrollVelocity =
      listSum (sampleRun s ys).velocityHistory /
        ((sampleRun s ys).velocityHistory.length : ℚ) := by
  induction ys generalizing s with
  | nil => exact absurd rfl h
  | cons y ys ih =>
    cases ys with
    | nil => exact updateVelocity_velocity_mean s y
    | cons z zs => exact ih (updateVelocity s y) (by simp)

theorem updateVelocity_fifo (s : VelocityState) (y : ℚ)
    (h : s.velocityHistory.length = 5) :
    (updateVelocity s y).velocityHistory =
      s.velocityHistory.tail ++ [|y - s.lastScrollY|] := by
  rw [updateVelocity_history s y (le_of_eq h)]
  cases hl : s.velocityHistory with
  | nil => rw [hl] at h; simp at h
  | cons x xs =>
    rw [hl] at h
    unfold lastN
    have h1 : ((x :: xs) ++ [|y - s.lastScrollY|]).length - 5 = 1 := by
      simp at h ⊢; omega
    rw [h1, List.drop_one]
    simp

theorem deltasFrom_ne_nil (last : ℚ) (ys : List ℚ)
    (h : deltasFrom last ys = [10, 10, 10, 10, 10, 10]) : ys ≠ [] := by
  intro he
  rw [he] at h
  simp [deltasFrom] at h

/-! ## Claim theorems: the velocity sampler -/

/-- C1: for every sequence of scroll positions fed to the sampler, the
retained history is exactly the window of the most recent (at most five)
absolute deltas, its length never exceeds 5, the published velocity is
the arithmetic mean of exactly that window, and a push onto a full
window evicts the oldest entry first (FIFO). -/
theorem velocity_history_window (S : ℚ) (ys : List ℚ) :
    (sampleRun (scrollVelocityParallaxInit S) ys).velocityHistory =
      lastN 5 (deltasFrom S ys)
  ∧ (sampleRun (scrollVelocityParallaxInit S) ys).velocityHistory.length ≤ 5
  ∧ (sampleRun (scrollVelocityParallaxInit S) ys).scrollVelocity =
      listSum (sampleRun (scrollVelocityParallaxInit S) ys).velocityHistory /
        ((sampleRun (scrollVelocityParallaxInit S) ys).velocityHistory.length : ℚ)
  ∧ (∀ s y, s.velocityHistory.length = 5 →
      (updateVelocity s y).velocityHistory =
        s.velocityHistory.tail ++ [|y - s.lastScrollY|]) := by
  have hinit : (scrollVelocityParallaxInit S).velocityHistory.length ≤ 5 := by
    simp [scrollVelocityParallaxInit]
  have h1 : (sampleRun (scrollVelocityParallaxInit S) ys).velocityHistory =
      lastN 5 (deltasFrom S ys) := by
    have := sampleRun_history (scrollVelocityParallaxInit S) ys hinit
    simpa [scrollVelocityParallaxInit] using this
  refine ⟨h1, ?_, ?_, fun s y h => updateVelocity_fifo s y h⟩
  · rw [h1]; exact lastN_length_le 5 _
  · cases ys with
    | nil => simp [sampleRun, scrollVelocityParallaxInit, listSum]
    | cons z zs => exact sampleRun_velocity_mean _ _ (by simp)

/-- Witness for `velocity_history_window`: a concrete three-sample run
and a concrete eviction from a full window. -/
theorem velocity_history_window_check :
    (sampleRun (scrollVelocityParallaxInit 0) [10, 30, 30]).velocityHistory =
      [10, 20, 0]
  ∧ (updateVelocity ⟨0, 0, [1, 2, 3, 4, 5]⟩ 7).velocityHistory =
      [2, 3, 4, 5, 7] := by
  constructor
  · rw [(velocity_history_window 0 [10, 30, 30]).1]
    norm_num [deltasFrom, lastN]
  · rw [(velocity_history_window 0 []).2.2.2 ⟨0, 0, [1, 2, 3, 4, 5]⟩ 7 (by decide)]
    norm_num

/-- C7: from any reachable history, six consecutive samples whose deltas
are all 10 leave the window filled with 10s and the published velocity
exactly 10. -/
theorem six_tens_velocity (s : VelocityState) (ys : List ℚ)
    (hlen : s.velocityHistory.length ≤ 5)
    (hd : deltasFrom s.lastScrollY ys = [10, 10, 10, 10, 10, 10]) :
    (sampleRun s ys).velocityHistory = [10, 10, 10, 10, 10]
  ∧ (sampleRun s ys).scrollVelocity = 10 := by
  have hh := sampleRun_history s ys hlen
  rw [hd] at hh
  have hfive : (sampleRun s ys).velocityHistory = [10, 10, 10, 10, 10] := by
    rw [hh]
    unfold lastN
    have h1 : (s.velocityHistory ++ [(10 : ℚ), 10, 10, 10, 10, 10]).length - 5 =
        s.velocityHistory.length + 1 := by
      simp
    rw [h1, List.drop_append]
    rfl
  refine ⟨hfive, ?_⟩
  rw [sampleRun_velocity_mean s ys (deltasFrom_ne_nil _ _ hd), hfive]
  norm_num [listSum, List.foldl]

/-- Witness for `six_tens_velocity`: a run over positions
10, 20, …, 60 starting from a transient two-entry history. -/
theorem six_tens_velocity_check :
    (sampleRun ⟨0, 0, [3, 4]⟩ [10, 20, 30, 40, 50, 60]).scrollVelocity = 10 :=
  (six_tens_velocity ⟨0, 0, [3, 4]⟩ [10, 20, 30, 40, 50, 60]
    (by decide) (by norm_num [deltasFrom])).2

/-- C8: `lastScrollY` is initialized to the scroll offset current at
binding time, so a first sample taken while the page still sits at that
offset records delta 0 and publishes velocity 0 — no spurious spike. -/
theorem first_sample_no_spike (S : ℚ) :
    updateVelocity (scrollVelocityParallaxInit S) S =
      { lastScrollY := S, scrollVelocity := 0, velocityHistory := [0] } := by
  simp [updateVelocity, scrollVelocityParallaxInit, listSum]

/-- C10: every sample pushes the new absolute delta before dividing, so
the division is over a non-empty history (positive length) and the
published velocity is a well-defined non-negative mean. -/
theorem sample_division_safe (s : VelocityState) (y : ℚ)
    (h : ∀ x ∈ s.velocityHistory, 0 ≤ x) :
    (updateVelocity s y).velocityHistory ≠ []
  ∧ 0 < (updateVelocity s y).velocityHistory.length
  ∧ (updateVelocity s y).scrollVelocity =
      listSum (updateVelocity s y).velocityHistory /
        ((updateVelocity s y).velocityHistory.length : ℚ)
  ∧ (∀ x ∈ (updateVelocity s y).velocityHistory, 0 ≤ x)
  ∧ 0 ≤ (updateVelocity s y).scrollVelocity := by
  have hv : (updateVelocity s y).velocityHistory =
      (if (s.velocityHistory ++ [|y - s.lastScrollY|]).length > 5
       then (s.velocityHistory ++ [|y - s.lastScrollY|]).tail
       else s.velocityHistory ++ [|y - s.lastScrollY|]) := rfl
  have hpushed : ∀ x ∈ s.velocityHistory ++ [|y - s.lastScrollY|], 0 ≤ x := by
    intro x hx
    rcases List.mem_append.mp hx with hx | hx
    · exact h x hx
    · rcases List.mem_singleton.mp hx with rfl
      exact abs_nonneg _
  have hmem : ∀ x ∈ (updateVelocity s y).velocityHistory, 0 ≤ x := by
    intro x hx
    rw [hv] at hx
    by_cases hc : (s.velocityHistory ++ [|y - s.lastScrollY|]).length > 5
    · rw [if_pos hc] at hx
      exact hpushed x (List.mem_of_mem_tail hx)
    · rw [if_neg hc] at hx
      exact hpushed x hx
  have hlen : 0 < (updateVelocity s y).velocityHistory.length := by
    rw [hv]
    by_cases hc : (s.velocityHistory ++ [|y - s.lastScrollY|]).length > 5
    · rw [if_pos hc]
      simp only [List.length_tail]
      omega
    · rw [if_neg hc]
      simp
  refine ⟨List.ne_nil_of_length_pos hlen, hlen,
    updateVelocity_velocity_mean s y, hmem, ?_⟩
  rw [updateVelocity_velocity_mean s y]
  exact div_nonneg (listSum_nonneg _ hmem) (by positivity)

/-- Witness for `sample_division_safe` at a concrete state and sample. -/
theorem sample_division_safe_check :
    (updateVelocity ⟨5, 0, [1, 2]⟩ 2).velocityHistory ≠ []
  ∧ 0 ≤ (updateVelocity ⟨5, 0, [1, 2]⟩ 2).scrollVelocity := by
  have h := sample_division_safe ⟨5, 0, [1, 2]⟩ 2 (by decide)
  exact ⟨h.1, h.2.2.2.2⟩

/-! ## Claim theorems: rate limiting -/

/-- C2: the 50ms leading-edge throttle composed with per-frame
coalescing: from a quiescent pipeline, two sample-triggering scroll
events 10ms apart inside one 50ms window schedule exactly one
frame-sample and cause no sampler mutation before the frame runs; and
over any event trace, at most one sampler mutation occurs per animation
frame. -/
theorem throttle_frame_coalescing (st : PipelineState) (t : ℚ)
    (hquiet : st.throttleBlockedUntil ≤ t) (htick : st.ticking = false) :
    (pipelineRun st [.scroll t, .scroll (t + 10)]).scheduledSamples =
      st.scheduledSamples + 1
  ∧ (pipelineRun st [.scroll t, .scroll (t + 10)]).mutations = st.mutations
  ∧ (∀ (s : PipelineState) (evs : List ScrollEvent),
      (pipelineRun s evs).mutations ≤ s.mutations + frameCount evs) := by
  have h1 : pipelineStep st (.scroll t) =
      { st with ticking := true
                scheduledSamples := st.scheduledSamples + 1
                throttleBlockedUntil := t + 50 } := by
    simp [pipelineStep, throttleStep, handleScroll, hquiet, htick]
  have hblock : ¬ ((t : ℚ) + 50 ≤ t + 10) := by linarith
  have h2 : pipelineRun st [.scroll t, .scroll (t + 10)] =
      { st with ticking := true
                scheduledSamples := st.scheduledSamples + 1
                throttleBlockedUntil := t + 50 } := by
    show pipelineStep (pipelineStep st (.scroll t)) (.scroll (t + 10)) = _
    rw [h1]
    simp [pipelineStep, throttleStep, hblock]
  rw [h2]
  exact ⟨rfl, rfl, pipelineRun_mutations_le⟩

/-- Witness for `throttle_frame_coalescing` at a concrete quiescent
pipeline. -/
theorem throttle_frame_coalescing_check :
    (pipelineRun ⟨0, false, 0, 0, ⟨0, 0, []⟩⟩
        [.scroll 0, .scroll (0 + 10)]).scheduledSamples = 0 + 1
  ∧ (pipelineRun ⟨0, false, 0, 0, ⟨0, 0, []⟩⟩
        [.scroll 0, .scroll (0 + 10)]).mutations = 0 := by
  have h := throttle_frame_coalescing ⟨0, false, 0, 0, ⟨0, 0, []⟩⟩ 0
    (by norm_num) rfl
  exact ⟨h.1, h.2.1⟩

/-! ## Claim theorems: gating, registration and the try/catch guard -/

/-- C3: when the animation capability is undefined or reduced motion is
preferred, the controller registers zero bindings, emits only the single
log line, and no exception reaches the page (its outcome carries no
caught error either) — whatever the registration actions would have
done. -/
theorem gate_registers_nothing (cfg : Config)
    (acts : List (Except String (List Binding)))
    (h : cfg.gsapDefined = false ∨ cfg.prefersReducedMotion = true) :
    premiumAnimationsMain cfg acts =
      { registered := [], logs := [gateLogMessage], caughtError := none } := by
  rcases h with h | h <;> simp [premiumAnimationsMain, h]

/-- Witness for `gate_registers_nothing`: capability absent, and a
registration action that would throw never runs. -/
theorem gate_registers_nothing_check :
    premiumAnimationsMain ⟨false, false, false⟩ [Except.error "boom"] =
      { registered := [], logs := [gateLogMessage], caughtError := none } :=
  gate_registers_nothing ⟨false, false, false⟩ [Except.error "boom"] (Or.inl rfl)

/-- C5: an exception thrown by one registration call is caught by the
single top-level guard: the calls before it keep their registrations,
the calls after it never run, and the error is recorded (logged) rather
than propagated — the gated script still completes with an outcome. -/
theorem registration_guard (bs : List (List Binding))
    (post : List (Except String (List Binding))) (e : String) :
    runRegistrationPass (bs.map Except.ok ++ Except.error e :: post) =
      (bs.flatten, some e)
  ∧ (∀ cfg : Config, cfg.gsapDefined = true → cfg.prefersReducedMotion = false →
      premiumAnimationsMain cfg (bs.map Except.ok ++ Except.error e :: post) =
        { registered := bs.flatten, logs := [], caughtError := some e }) := by
  have hpass : runRegistrationPass (bs.map Except.ok ++ Except.error e :: post) =
      (bs.flatten, some e) := by
    induction bs with
    | nil => rfl
    | cons b bs ih =>
      simp only [List.map_cons, List.cons_append, runRegistrationPass,
        List.append_eq, ih, List.flatten_cons]
  refine ⟨hpass, fun cfg hg hp => ?_⟩
  simp [premiumAnimationsMain, hg, hp, hpass]

/-- Witness for `registration_guard`: one successful call, then a throw,
then a call that never runs. -/
theorem registration_guard_check :
    premiumAnimationsMain ⟨true, false, false⟩
        [Except.ok [Binding.multiLayerParallaxFull], Except.error "boom",
         Except.ok [Binding.imageFocusTransition]] =
      { registered := [Binding.multiLayerParallaxFull], logs := [],
        caughtError := some "boom" } := by
  have h := (registration_guard [[Binding.multiLayerParallaxFull]]
      [Except.ok [Binding.imageFocusTransition]] "boom").2
    ⟨true, false, false⟩ rfl rfl
  simpa using h

/-- C4 counterexample: on a mobile runtime the controller does not
register the simple fade-in at all: `initPremiumAnimations` never calls
`multiLayerParallax` on mobile (the call sits under `if (!isMobile)`),
so the fade-in branch is unreachable and the mobile pass registers only
the focus transition and the touch-event optimization. -/
theorem mobile_fade_in_not_registered :
    Binding.multiLayerParallaxFadeIn ∉ initPremiumAnimationsBindings true true
  ∧ initPremiumAnimationsBindings true true =
      [Binding.imageFocusTransition, Binding.optimizeTouchEvents] := by
  decide

/-- C4 (amended): on a mobile classification only the reduced subset —
the image focus transition plus the touch-event optimization — is
registered; all heavy effects are skipped, and so is the simple fade-in,
whose branch inside `multiLayerParallax` exists but is never reached
because that function is only called off mobile; on a non-mobile runtime
(hero section present) the full set of six effect bindings is
registered. -/
theorem mobile_reduced_bindings (heroPresent : Bool) :
    initPremiumAnimationsBindings true heroPresent =
      [Binding.imageFocusTransition, Binding.optimizeTouchEvents]
  ∧ (∀ b ∈ initPremiumAnimationsBindings true heroPresent,
      b ≠ Binding.multiLayerParallaxFull ∧
      b ≠ Binding.multiLayerParallaxFadeIn ∧
      b ≠ Binding.scrollVelocityParallax ∧
      b ≠ Binding.pinnedSectionMicroMovements ∧
      b ≠ Binding.subtlePerspectiveDepth ∧
      b ≠ Binding.magneticHoverEffect)
  ∧ multiLayerParallax true true = [Binding.multiLayerParallaxFadeIn]
  ∧ initPremiumAnimationsBindings false true =
      [Binding.multiLayerParallaxFull, Binding.scrollVelocityParallax,
       Binding.pinnedSectionMicroMovements, Binding.subtlePerspectiveDepth,
       Binding.magneticHoverEffect, Binding.imageFocusTransition] := by
  cases heroPresent <;> decide

/-- Witness for `mobile_reduced_bindings` on a mobile runtime with a
hero section. -/
theorem mobile_reduced_bindings_check :
    initPremiumAnimationsBindings true true =
      [Binding.imageFocusTransition, Binding.optimizeTouchEvents]
  ∧ Binding.imageFocusTransition ≠ Binding.magneticHoverEffect := by
  refine ⟨(mobile_reduced_bindings true).1, ?_⟩
  exact ((mobile_reduced_bindings true).2.1 Binding.imageFocusTransition
    (by decide)).2.2.2.2.2

/-! ## Claim theorems: magnetic hover -/

/-- C6: pointer magnetism — enter and move both tween the button to
exactly 0.08 times the pointer's offset from the button's center in each
axis (so offset (20, −10) yields (1.6, −0.8)), leave tweens back to
(0, 0), and the move tween's settle duration is strictly shorter than
the enter tween's. -/
theorem magnetic_hover_spec :
    (∀ (rect : Rect) (e : PointerPos),
      magneticEnterTarget rect e =
        ((pointerOffset rect e).1 * (8 / 100), (pointerOffset rect e).2 * (8 / 100))
      ∧ magneticMoveTarget rect e = magneticEnterTarget rect e)
  ∧ (∀ (rect : Rect) (e : PointerPos), pointerOffset rect e = (20, -10) →
      magneticEnterTarget rect e = (8 / 5, -4 / 5)
      ∧ magneticMoveTarget rect e = (8 / 5, -4 / 5))
  ∧ magneticLeaveTarget = (0, 0)
  ∧ magneticMoveDuration < magneticEnterDuration := by
  refine ⟨fun rect e => ⟨rfl, rfl⟩, ?_, rfl,
    by norm_num [magneticMoveDuration, magneticEnterDuration]⟩
  intro rect e h
  have h1 : (pointerOffset rect e).1 = 20 := by rw [h]
  have h2 : (pointerOffset rect e).2 = -10 := by rw [h]
  constructor
  · unfold magneticEnterTarget
    rw [h1, h2]
    norm_num
  · unfold magneticMoveTarget
    rw [h1, h2]
    norm_num

/-- Witness for `magnetic_hover_spec`: a pointer 20px right of and 10px
above the center of a degenerate button rectangle. -/
theorem magnetic_hover_spec_check :
    magneticEnterTarget ⟨0, 0, 0, 0⟩ ⟨20, -10⟩ = (8 / 5, -4 / 5)
  ∧ magneticMoveDuration < magneticEnterDuration := by
  refine ⟨?_, magnetic_hover_spec.2.2.2⟩
  exact (magnetic_hover_spec.2.1 ⟨0, 0, 0, 0⟩ ⟨20, -10⟩
    (by norm_num [pointerOffset])).1

/-! ## Claim theorems: mobile override script -/

/-- C9: on every runtime the user-agent test classifies as mobile — and
on no other — the override script injects the style forcing transition,
animation and transform to none, opacity 1, flat transform-style,
visible backface and no perspective, sets touch-action to manipulation,
and installs the touchstart handler that stops propagation exactly for
targets inside `.scrollable` elements; its outcome never depends on the
reduced-motion preference. -/
theorem mobile_override_spec (ua : String) (p q : Bool) :
    (isMobileUA ua = true →
      mobileOptimizeScript (isMobileUA ua) p =
        { styleInjected := some disableAnimationsStyle
          touchAction := some "manipulation"
          touchstartScrollableHandlerInstalled := true
          noHoverClassAdded := true })
  ∧ (isMobileUA ua = false →
      mobileOptimizeScript (isMobileUA ua) p =
        { styleInjected := none
          touchAction := none
          touchstartScrollableHandlerInstalled := false
          noHoverClassAdded := false })
  ∧ mobileOptimizeScript (isMobileUA ua) p = mobileOptimizeScript (isMobileUA ua) q
  ∧ (∀ inScrollable : Bool,
      touchstartScrollableHandler inScrollable = inScrollable)
  ∧ disableAnimationsStyle =
      { transition := "none", animation := "none", transform := "none",
        opacity := "1", transformStyle := "flat",
        backfaceVisibility := "visible", perspective := "none" } := by
  refine ⟨fun h => by simp [mobileOptimizeScript, h],
          fun h => by simp [mobileOptimizeScript, h],
          rfl, fun _ => rfl, rfl⟩

/-- Witness for `mobile_override_spec` on an iPhone user agent. -/
theorem mobile_override_spec_check :
    mobileOptimizeScript (isMobileUA "iPhone") false =
      { styleInjected := some disableAnimationsStyle
        touchAction := some "manipulation"
        touchstartScrollableHandlerInstalled := true
        noHoverClassAdded := true } :=
  (mobile_override_spec "iPhone" false true).1 (by decide)

end Sadouni
